import Mathlib

/-!
Verification of the protocol engine of a resumable-upload server
(dynamic-bucket-tusd).  The definitions below are a shallow embedding of
the Go source in `pkg/handler/unrouted_handler.go` and `pkg/models`:
header grammars, upload-creation validation, the PATCH handler state
machine and the chunk-transfer engine.  Store and hook behaviour that the
engine merely invokes (WriteChunk, FinishUpload, DeclareLength, the
pre-finish hook) is abstracted as explicit outcome parameters, and the
calls the engine makes are recorded in an event trace so that statements
about "no store mutation" or "completion was attempted" are expressible.
Go `int64` values are modelled as `Int` (the claims under study concern
values far below the overflow range).
-/

namespace DBTusd

/-- Protocol error, modelling `models.Error` from `pkg/models` (part of
`def.go`): a stable code, a message and the default HTTP status. -/
structure GoError where
  code : String
  message : String
  status : Nat
deriving DecidableEq, Repr

/-- Error catalog from `pkg/models/def.go` (only the entries the claims
need). -/
def ErrInvalidContentType : GoError :=
  ⟨"ERR_INVALID_CONTENT_TYPE", "missing or invalid Content-Type header", 400⟩

def ErrInvalidUploadLength : GoError :=
  ⟨"ERR_INVALID_UPLOAD_LENGTH", "missing or invalid Upload-Length header", 400⟩

def ErrInvalidOffset : GoError :=
  ⟨"ERR_INVALID_OFFSET", "missing or invalid Upload-Offset header", 400⟩

def ErrNotFound : GoError :=
  ⟨"ERR_UPLOAD_NOT_FOUND", "upload not found", 404⟩

def ErrMismatchOffset : GoError :=
  ⟨"ERR_MISMATCHED_OFFSET", "mismatched offset", 409⟩

def ErrSizeExceeded : GoError :=
  ⟨"ERR_UPLOAD_SIZE_EXCEEDED", "upload's size exceeded", 413⟩

def ErrNotImplemented : GoError :=
  ⟨"ERR_NOT_IMPLEMENTED", "feature not implemented", 501⟩

def ErrInvalidConcat : GoError :=
  ⟨"ERR_INVALID_CONCAT", "invalid Upload-Concat header", 400⟩

def ErrModifyFinal : GoError :=
  ⟨"ERR_MODIFY_FINAL", "modifying a final upload is not allowed", 403⟩

def ErrUploadLengthAndUploadDeferLength : GoError :=
  ⟨"ERR_AMBIGUOUS_UPLOAD_LENGTH", "provided both Upload-Length and Upload-Defer-Length", 400⟩

def ErrInvalidUploadDeferLength : GoError :=
  ⟨"ERR_INVALID_UPLOAD_LENGTH_DEFER", "invalid Upload-Defer-Length header", 400⟩

def ErrMaxSizeExceeded : GoError :=
  ⟨"ERR_MAX_SIZE_EXCEEDED", "maximum size exceeded", 413⟩

/-- Constant `models.UploadLengthDeferred` from `pkg/models/def.go`. -/
def UploadLengthDeferred : String := "1"

/-- Go's `math.MaxInt64`. -/
def maxInt64 : Int := 2 ^ 63 - 1

/-- The fields of `models.FileInfo` that the handler logic reads and
writes (metadata and storage keys are irrelevant to the claims). -/
structure FileInfo where
  id : String
  size : Int
  sizeIsDeferred : Bool
  offset : Int
  isPartialUpload : Bool
  isFinal : Bool
deriving DecidableEq, Repr

/-- The handler configuration and store-composer capability flags the
claims depend on (`config.Config.MaxSize`, `models.StoreComposer`). -/
structure Config where
  maxSize : Int
  usesLengthDeferrer : Bool
  usesConcater : Bool
  usesTerminater : Bool
deriving DecidableEq, Repr

/-- A response under construction: status code plus header map
(`models.HTTPResponse`; the body plays no role in the claims). -/
structure HTTPResponse where
  statusCode : Nat
  headers : List (String × String)
deriving DecidableEq, Repr

/-- Go map assignment `m[k] = v` on an association list: replace the
existing entry or append a new one. -/
def assocInsert {α β : Type} [DecidableEq α] (m : List (α × β)) (k : α) (v : β) :
    List (α × β) :=
  if m.any (fun p => p.1 = k) then
    m.map (fun p => if p.1 = k then (k, v) else p)
  else m ++ [(k, v)]

/-- Set one header on a response (`resp.Header[k] = v`). -/
def HTTPResponse.setHeader (r : HTTPResponse) (k v : String) : HTTPResponse :=
  { r with headers := assocInsert r.headers k v }

/-- Decimal digit to character, for `strconv.FormatInt`. -/
def digitChar (n : Nat) : Char := Char.ofNat (48 + n)

/-- Fuel-driven decimal rendering of a natural number (most significant
digit first); fuel `n + 1` always suffices. -/
def natDigitsAux : Nat → Nat → List Char
  | 0, _ => []
  | fuel + 1, n => if n < 10 then [digitChar n] else natDigitsAux fuel (n / 10) ++ [digitChar (n % 10)]

/-- Go's `strconv.FormatInt(i, 10)`. -/
def formatInt (i : Int) : String :=
  match i with
  | .ofNat n => ⟨natDigitsAux (n + 1) n⟩
  | .negSucc n => ⟨'-' :: natDigitsAux (n + 2) (n + 1)⟩

/-- Value of a list of decimal digit characters, or `none` if the list is
empty or contains a non-digit. -/
def decDigitsVal (cs : List Char) : Option Nat :=
  if cs ≠ [] ∧ cs.all (fun c => c.isDigit) then
    some (cs.foldl (fun a c => a * 10 + (c.toNat - 48)) 0)
  else none

/-- Go's `strconv.ParseInt(s, 10, 64)`: optional sign, decimal digits,
error when empty, malformed or outside the `int64` range. -/
def parseInt64 (s : String) : Option Int :=
  match s.data with
  | [] => none
  | '+' :: rest =>
    (decDigitsVal rest).bind (fun n => if n ≤ 2 ^ 63 - 1 then some (n : Int) else none)
  | '-' :: rest =>
    (decDigitsVal rest).bind (fun n => if n ≤ 2 ^ 63 then some (-(n : Int)) else none)
  | cs =>
    (decDigitsVal cs).bind (fun n => if n ≤ 2 ^ 63 - 1 then some (n : Int) else none)

/-- `validateNewUploadLengthHeaders` (unrouted_handler.go:1366-1387):
checks the `Upload-Length` / `Upload-Defer-Length` pair for upload
creation.  Returns (uploadLength, uploadLengthDeferred, err). -/
def validateNewUploadLengthHeaders (usesLengthDeferrer : Bool)
    (uploadLengthHeader uploadDeferLengthHeader : String) :
    Int × Bool × Option GoError :=
  let haveBothLengthHeaders := uploadLengthHeader ≠ "" ∧ uploadDeferLengthHeader ≠ ""
  let haveInvalidDeferHeader :=
    uploadDeferLengthHeader ≠ "" ∧ uploadDeferLengthHeader ≠ UploadLengthDeferred
  let lengthIsDeferred := uploadDeferLengthHeader = UploadLengthDeferred
  if lengthIsDeferred ∧ usesLengthDeferrer = false then
    (0, false, some ErrNotImplemented)
  else if haveBothLengthHeaders then
    (0, false, some ErrUploadLengthAndUploadDeferLength)
  else if haveInvalidDeferHeader then
    (0, false, some ErrInvalidUploadDeferLength)
  else if lengthIsDeferred then
    (0, true, none)
  else
    match parseInt64 uploadLengthHeader with
    | none => (0, false, some ErrInvalidUploadLength)
    | some n => if n < 0 then (n, false, some ErrInvalidUploadLength) else (n, false, none)

/-- Unicode white space test on a character, as used by Go's
`strings.TrimSpace` (ASCII range; the header grammars under study only
meet ASCII white space). -/
def isSpaceChar (c : Char) : Bool :=
  c.toNat = 32 || c.toNat = 9 || c.toNat = 10 || c.toNat = 11 || c.toNat = 12 || c.toNat = 13

/-- Go's `strings.TrimSpace` on a character list. -/
def trimSpaceChars (l : List Char) : List Char :=
  ((l.dropWhile isSpaceChar).reverse.dropWhile isSpaceChar).reverse

/-- `extractIDFromPath` (unrouted_handler.go:1558-1564): the last path
segment, via the regular expression `([^/]+)/?$` — i.e. the maximal
trailing run of non-slash characters, permitting one trailing slash;
`ErrNotFound` (here `none`) when there is no such run. -/
def extractIDFromPath (url : List Char) : Option (List Char) :=
  let s := if url.getLast? = some '/' then url.dropLast else url
  let id := (s.reverse.takeWhile (fun c => c ≠ '/')).reverse
  if id = [] then none else some id

/-- The extraction loop inside `parseConcat` (unrouted_handler.go:1531-1545):
trim each space-separated component, skip empties, extract the trailing
path segment of each; an extraction failure aborts the whole parse with
that error (the ids accumulated so far are kept, as in the Go named
returns). -/
def concatExtractLoop : List (List Char) → List (List Char) × Option GoError
  | [] => ([], none)
  | v :: rest =>
    let w := trimSpaceChars v
    if w = [] then concatExtractLoop rest
    else
      match extractIDFromPath w with
      | none => ([], some ErrNotFound)
      | some id =>
        let (ids, e) := concatExtractLoop rest
        (id :: ids, e)

/-- `parseConcat` (unrouted_handler.go:1517-1555).  Result is
(isPartialUpload, isFinal, partialUploads, err).  Note the Go tail step:
when no ids were extracted (and no extraction error short-circuited),
`isFinal` is forced back to `false` and the error is `ErrInvalidConcat`. -/
def parseConcat (header : List Char) : Bool × Bool × List (List Char) × Option GoError :=
  if header.length = 0 then (false, false, [], none)
  else if header = "partial".data then (true, false, [], none)
  else if "final;".data.isPrefixOf header ∧ 6 < header.length then
    match concatExtractLoop (List.splitOn ' ' (header.drop 6)) with
    | (ids, some e) => (false, true, ids, some e)
    | (ids, none) =>
      if ids.length = 0 then (false, false, [], some ErrInvalidConcat)
      else (false, true, ids, none)
  else (false, false, [], some ErrInvalidConcat)

/-- Store / hook calls made by the engine, recorded as a trace so that
claims about "no store mutation" and "completion attempted" can be
stated.  `writeChunkCall offset maxSize` is `upload.WriteChunk` with a
body reader capped at `maxSize`; `finishAttempt` marks the invocation of
`finishUploadIfComplete`; `finishUploadCall` is the store's
`FinishUpload`; `declareLengthCall n` is `DeclareLength(n)`. -/
inductive StoreEvent where
  | writeChunkCall (offset maxSize : Int)
  | finishAttempt
  | finishUploadCall
  | declareLengthCall (n : Int)
deriving DecidableEq, Repr

/-- Abstract outcomes of the store and hook calls the engine makes; the
engine is verified for every possible behaviour of these collaborators.
`bytesWritten`/`transferErr` model the combined result of
`upload.WriteChunk` and the body reader, `finishErr` the result of
`FinishUpload`, `preFinishHook` the pre-finish-response callback
(`none` = not configured), `declareErr` the result of `DeclareLength`. -/
structure StoreBehavior where
  bytesWritten : Int
  transferErr : Option GoError
  finishErr : Option GoError
  preFinishHook : Option (Except GoError HTTPResponse)
  declareErr : Option GoError
deriving Repr

/-- `HTTPResponse.MergeWith`.  Modelled from the spec: the pre-create and
pre-finish hooks "may merge response headers/body" and a non-zero status
of the merged-in response wins (the method lives in `pkg/models`, whose
source for it is not part of this repository snapshot). -/
def HTTPResponse.mergeWith (a b : HTTPResponse) : HTTPResponse :=
  ⟨if b.statusCode ≠ 0 then b.statusCode else a.statusCode,
   b.headers.foldl (fun hs p => assocInsert hs p.1 p.2) a.headers⟩

/-- `finishUploadIfComplete` (unrouted_handler.go:950-977): when the size
is known and the offset has reached it, call the store's `FinishUpload`,
then the pre-finish hook; an error from either is returned with the
un-merged response.  When the upload is not complete, nothing happens and
no error is returned. -/
def finishUploadIfComplete (sb : StoreBehavior) (resp : HTTPResponse) (info : FileInfo) :
    (HTTPResponse × Option GoError) × List StoreEvent :=
  if info.sizeIsDeferred = false ∧ info.offset = info.size then
    match sb.finishErr with
    | some e => ((resp, some e), [.finishAttempt, .finishUploadCall])
    | none =>
      match sb.preFinishHook with
      | some (.error e) => ((resp, some e), [.finishAttempt, .finishUploadCall])
      | some (.ok r2) => ((resp.mergeWith r2, none), [.finishAttempt, .finishUploadCall])
      | none => ((resp, none), [.finishAttempt, .finishUploadCall])
  else ((resp, none), [.finishAttempt])

/-- The write-budget computation of `writeChunk`
(unrouted_handler.go:851-866): start from `Size - Offset`; for a deferred
size use `MaxSize - Offset` when a global maximum is configured and
`math.MaxInt64` otherwise; a positive request `Content-Length` overrides
the budget unconditionally. -/
def writeChunkMaxSize (cfg : Config) (info : FileInfo) (length : Int) : Int :=
  let m := info.size - info.offset
  let m := if info.sizeIsDeferred then
      (if cfg.maxSize > 0 then cfg.maxSize - info.offset else maxInt64)
    else m
  if length > 0 then length else m

/-- Result of one invocation of the chunk-transfer engine: the response
and error actually returned (Go returns both), the trace of store calls,
and the upload state as the store now has it. -/
structure WriteChunkResult where
  resp : HTTPResponse
  err : Option GoError
  events : List StoreEvent
  info : FileInfo
deriving Repr

/-- `writeChunk` (unrouted_handler.go:840-945): eagerly reject when a
known size would be exceeded by `Offset + Content-Length`; otherwise
stream (at most the budget) into the store, set `Upload-Offset` to
`offset + bytesWritten`, then always attempt `finishUploadIfComplete`;
a transfer error is returned (with the pre-finish response) in
preference to anything the completion attempt produced. -/
def writeChunk (cfg : Config) (sb : StoreBehavior) (resp : HTTPResponse)
    (info : FileInfo) (length : Int) (hasBody : Bool) : WriteChunkResult :=
  if info.sizeIsDeferred = false ∧ info.offset + length > info.size then
    ⟨resp, some ErrSizeExceeded, [], info⟩
  else
    let maxSize := writeChunkMaxSize cfg info length
    let bytesWritten := if hasBody then sb.bytesWritten else 0
    let err := if hasBody then sb.transferErr else none
    let wEvents := if hasBody then [StoreEvent.writeChunkCall info.offset maxSize] else []
    let newOffset := info.offset + bytesWritten
    let resp1 := resp.setHeader "Upload-Offset" (formatInt newOffset)
    let info1 := { info with offset := newOffset }
    let ((finishResp, finishErr), fEvents) := finishUploadIfComplete sb resp1 info1
    match err with
    | some e => ⟨resp1, some e, wEvents ++ fEvents, info1⟩
    | none => ⟨finishResp, finishErr, wEvents ++ fEvents, info1⟩

/-- The headers and body attributes of a PATCH request that `PatchFile`
inspects. -/
structure PatchRequest where
  contentType : String
  uploadOffset : String
  uploadLength : String
  uploadComplete : String
  contentLength : Int
  hasBody : Bool
  isDraft : Bool
deriving Repr

/-- Outcome of `PatchFile`: the response sent (or the error passed to
`sendError`), the trace of store calls, and the final upload state. -/
structure PatchResult where
  resp : Except GoError HTTPResponse
  events : List StoreEvent
  info : FileInfo
deriving Repr

/-- `PatchFile` (unrouted_handler.go:681-835), for an upload that was
loaded successfully (`info` is the result of `GetInfo`; the
store-selection preamble, locking and the load itself are not modelled —
the claims condition on the loaded state).  Order of checks as in the
source: content type (tus v1 only), `Upload-Offset` parse, final upload,
offset mismatch, already-complete short circuit, `Upload-Length`
declaration, chunk transfer, draft completion. -/
def patchFile (cfg : Config) (sb : StoreBehavior) (req : PatchRequest)
    (info : FileInfo) : PatchResult :=
  if req.isDraft = false ∧ req.contentType ≠ "application/offset+octet-stream" then
    ⟨.error ErrInvalidContentType, [], info⟩
  else
    match parseInt64 req.uploadOffset with
    | none => ⟨.error ErrInvalidOffset, [], info⟩
    | some offset =>
      if offset < 0 then ⟨.error ErrInvalidOffset, [], info⟩
      else if info.isFinal then ⟨.error ErrModifyFinal, [], info⟩
      else if offset ≠ info.offset then ⟨.error ErrMismatchOffset, [], info⟩
      else
        let resp : HTTPResponse := ⟨204, []⟩
        if info.sizeIsDeferred = false ∧ info.offset = info.size then
          ⟨.ok (resp.setHeader "Upload-Offset" (formatInt offset)), [], info⟩
        else
          let lenStep : Except GoError (FileInfo × List StoreEvent) :=
            if req.uploadLength ≠ "" then
              if cfg.usesLengthDeferrer = false then .error ErrNotImplemented
              else if info.sizeIsDeferred = false then .error ErrInvalidUploadLength
              else
                match parseInt64 req.uploadLength with
                | none => .error ErrInvalidUploadLength
                | some n =>
                  if n < 0 ∨ n < info.offset ∨ (cfg.maxSize > 0 ∧ n > cfg.maxSize) then
                    .error ErrInvalidUploadLength
                  else
                    match sb.declareErr with
                    | some e => .error e
                    | none =>
                      .ok ({ info with size := n, sizeIsDeferred := false },
                           [.declareLengthCall n])
            else .ok (info, [])
          match lenStep with
          | .error e => ⟨.error e, [], info⟩
          | .ok (info1, declEvents) =>
            let w := writeChunk cfg sb resp info1 req.contentLength req.hasBody
            match w.err with
            | some e => ⟨.error e, declEvents ++ w.events, w.info⟩
            | none =>
              if req.uploadComplete = "?1" ∧ info1.sizeIsDeferred then
                match sb.declareErr with
                | some e =>
                  ⟨.error e, declEvents ++ w.events ++ [.declareLengthCall w.info.offset], w.info⟩
                | none =>
                  let info3 := { w.info with size := w.info.offset, sizeIsDeferred := false }
                  let ((fr, fe), fev) := finishUploadIfComplete sb w.resp info3
                  match fe with
                  | some e =>
                    ⟨.error e, declEvents ++ w.events ++ [.declareLengthCall w.info.offset] ++ fev,
                     info3⟩
                  | none =>
                    ⟨.ok fr, declEvents ++ w.events ++ [.declareLengthCall w.info.offset] ++ fev,
                     info3⟩
              else ⟨.ok w.resp, declEvents ++ w.events, w.info⟩

/-- The headers of a tus-v1 POST creation request that the validation
phase of `PostFile` inspects. -/
structure PostRequest where
  contentType : String
  uploadConcat : String
  uploadLength : String
  uploadDeferLength : String
deriving Repr

/-- The validation phase of `PostFile` (unrouted_handler.go:252-305): the
part of the creation handler that runs before `NewUpload`.  An `.error`
result means `sendError` is called and no upload is created.
`sizeOfUploadsResult` abstracts `sizeOfUploads` for the final-concat
branch.  Returns (size, sizeIsDeferred, isPartialUpload, isFinal, ids). -/
def postFileValidate (cfg : Config) (req : PostRequest)
    (sizeOfUploadsResult : Except GoError Int) :
    Except GoError (Int × Bool × Bool × Bool × List (List Char)) :=
  let containsChunk := req.contentType = "application/offset+octet-stream"
  let concatHeader := if cfg.usesConcater then req.uploadConcat else ""
  match parseConcat concatHeader.data with
  | (_, _, _, some e) => .error e
  | (isPartialU, isFinal, ids, none) =>
    let sizeRes : Except GoError (Int × Bool) :=
      if isFinal then
        if containsChunk then .error ErrModifyFinal
        else
          match sizeOfUploadsResult with
          | .error e => .error e
          | .ok s => .ok (s, false)
      else
        match validateNewUploadLengthHeaders cfg.usesLengthDeferrer
            req.uploadLength req.uploadDeferLength with
        | (_, _, some e) => .error e
        | (size, deferred, none) => .ok (size, deferred)
    match sizeRes with
    | .error e => .error e
    | .ok (size, deferred) =>
      if cfg.maxSize > 0 ∧ size > cfg.maxSize then .error ErrMaxSizeExceeded
      else .ok (size, deferred, isPartialU, isFinal, ids)

/-- Byte strings: Go strings viewed as their bytes (each entry < 256). -/
abbrev Bytes := List Nat

/-- The standard base64 alphabet as a sextet-to-byte table
(`encoding/base64.StdEncoding`). -/
def b64Char (n : Nat) : Nat :=
  if n < 26 then 65 + n
  else if n < 52 then 97 + (n - 26)
  else if n < 62 then 48 + (n - 52)
  else if n = 62 then 43
  else 47

/-- Inverse of the base64 alphabet: byte to sextet, `none` for a byte
outside the alphabet (including the padding byte 61, `=`). -/
def b64Index (c : Nat) : Option Nat :=
  if 65 ≤ c ∧ c ≤ 90 then some (c - 65)
  else if 97 ≤ c ∧ c ≤ 122 then some (26 + (c - 97))
  else if 48 ≤ c ∧ c ≤ 57 then some (52 + (c - 48))
  else if c = 43 then some 62
  else if c = 47 then some 63
  else none

/-- `base64.StdEncoding.EncodeToString`: three bytes become four alphabet
bytes; a final group of one or two bytes is padded with `=` (byte 61). -/
def base64Encode : Bytes → Bytes
  | [] => []
  | [b1] => [b64Char (b1 / 4), b64Char (b1 % 4 * 16), 61, 61]
  | [b1, b2] => [b64Char (b1 / 4), b64Char (b1 % 4 * 16 + b2 / 16), b64Char (b2 % 16 * 4), 61]
  | b1 :: b2 :: b3 :: rest =>
    b64Char (b1 / 4) :: b64Char (b1 % 4 * 16 + b2 / 16) ::
      b64Char (b2 % 16 * 4 + b3 / 64) :: b64Char (b3 % 64) :: base64Encode rest

/-- `base64.StdEncoding.DecodeString`: four bytes at a time; the two
padding shapes are accepted only at the end of the input; any byte
outside the alphabet, stray padding or a length not divisible by four is
an error (Go additionally skips CR/LF bytes, which cannot occur in the
headers under study). -/
def base64Decode : Bytes → Option Bytes
  | [] => some []
  | c1 :: c2 :: c3 :: c4 :: rest =>
    match b64Index c1, b64Index c2 with
    | some s1, some s2 =>
      if c3 = 61 then
        if c4 = 61 ∧ rest = [] then some [s1 * 4 + s2 / 16] else none
      else
        match b64Index c3 with
        | some s3 =>
          if c4 = 61 then
            if rest = [] then some [s1 * 4 + s2 / 16, s2 % 16 * 16 + s3 / 4] else none
          else
            match b64Index c4 with
            | some s4 =>
              match base64Decode rest with
              | some bs =>
                some ((s1 * 4 + s2 / 16) :: (s2 % 16 * 16 + s3 / 4) :: (s3 % 4 * 64 + s4) :: bs)
              | none => none
            | none => none
        | none => none
    | _, _ => none
  | _ => none

/-- White space test on a byte (ASCII range of `strings.TrimSpace`). -/
def isSpaceByte (c : Nat) : Bool :=
  c = 32 || c = 9 || c = 10 || c = 11 || c = 12 || c = 13

/-- `strings.TrimSpace` on a byte string. -/
def trimSpace (l : Bytes) : Bytes :=
  ((l.dropWhile isSpaceByte).reverse.dropWhile isSpaceByte).reverse

/-- One iteration of the `ParseMetadataHeader` loop
(unrouted_handler.go:1465-1491): trim the element, split on a single
space (byte 32), drop it when there are more than two parts or the key is
empty; with two parts the value must decode as base64, otherwise the
element is dropped; with one part the value is empty. -/
def parseMetadataElement (element0 : Bytes) : Option (Bytes × Bytes) :=
  match (trimSpace element0).splitOn 32 with
  | [key] => if key = [] then none else some (key, [])
  | [key, v] =>
    if key = [] then none
    else
      match base64Decode v with
      | some dec => some (key, dec)
      | none => none
  | _ => none

/-- The body of the `ParseMetadataHeader` loop: a successfully parsed
element is assigned into the map, a failed one leaves it unchanged. -/
def metaStep (meta : List (Bytes × Bytes)) (element : Bytes) : List (Bytes × Bytes) :=
  match parseMetadataElement element with
  | some (k, v) => assocInsert meta k v
  | none => meta

/-- `ParseMetadataHeader` (unrouted_handler.go:1462-1494): split the
header on commas (byte 44) and fold the per-element parser into a map;
elements that fail to parse are silently skipped, so the function is
total. -/
def ParseMetadataHeader (header : Bytes) : List (Bytes × Bytes) :=
  (header.splitOn 44).foldl metaStep []

/-- `SerializeMetadataHeader` (unrouted_handler.go:1499-1512): join
`key SP base64(value)` with commas (Go appends a trailing comma and strips
it, which is the same as intercalation). -/
def SerializeMetadataHeader (meta : List (Bytes × Bytes)) : Bytes :=
  List.intercalate [44] (meta.map (fun p => p.1 ++ 32 :: base64Encode p.2))

/-- A well-formed metadata map for the round-trip law: keys are non-empty
and free of white space and commas, values are byte strings, and keys are
pairwise distinct. -/
def WellFormedMeta (meta : List (Bytes × Bytes)) : Prop :=
  (meta.map (fun p => p.1)).Nodup ∧
    ∀ p ∈ meta, p.1 ≠ [] ∧ (∀ c ∈ p.1, isSpaceByte c = false ∧ c ≠ 44) ∧
      ∀ b ∈ p.2, b < 256

/-! ## Theorems -/

/-- Claim C2 counterexample: when both `Upload-Length: 5` and
`Upload-Defer-Length: 1` are present and the store lacks the
length-deferral capability, the code returns `ErrNotImplemented`, not
`ErrUploadLengthAndUploadDeferLength` as the claim states — the
capability check comes first in the source. -/
theorem c2_counterexample :
    validateNewUploadLengthHeaders false "5" "1" = (0, false, some ErrNotImplemented) ∧
      ErrNotImplemented ≠ ErrUploadLengthAndUploadDeferLength := by
  constructor
  · rfl
  · decide

/-- Claim C2 (amended): validation checks the length-deferral capability
first — if `Upload-Defer-Length` is the literal `1` and the store lacks
the capability, the result is `ErrNotImplemented`, even when
`Upload-Length` is also present; only otherwise does the presence of both
headers produce `ErrUploadLengthAndUploadDeferLength`. -/
theorem c2_amended (uses : Bool) (ulh udh : String) :
    (udh = UploadLengthDeferred → uses = false →
      (validateNewUploadLengthHeaders uses ulh udh).2.2 = some ErrNotImplemented) ∧
    (ulh ≠ "" → udh ≠ "" → (udh = UploadLengthDeferred → uses = true) →
      (validateNewUploadLengthHeaders uses ulh udh).2.2 =
        some ErrUploadLengthAndUploadDeferLength) := by
  constructor
  · intro h1 h2
    simp [validateNewUploadLengthHeaders, h1, h2]
  · intro h1 h2 h3
    by_cases hd : udh = UploadLengthDeferred
    · simp [validateNewUploadLengthHeaders, hd, h3 hd, h1, h2, UploadLengthDeferred]
    · simp [validateNewUploadLengthHeaders, hd, h1, h2]

/-- Witness for `c2_amended` at concrete headers. -/
theorem c2_amended_witness :
    (validateNewUploadLengthHeaders false "" "1").2.2 = some ErrNotImplemented ∧
      (validateNewUploadLengthHeaders true "5" "1").2.2 =
        some ErrUploadLengthAndUploadDeferLength := by
  constructor
  · exact (c2_amended false "" "1").1 rfl rfl
  · exact (c2_amended true "5" "1").2 (by decide) (by decide) (fun _ => rfl)

/-- Claim C1 counterexample: for a deferred-size upload with global
`MaxSize = 10` and `Offset = 0`, a request `Content-Length` of 100 makes
the write budget 100, which exceeds the applicable size bound
`MaxSize - Offset = 10`; the engine really installs that budget (see the
`writeChunkCall` event).  So a positive `Content-Length` is **not**
always the tightest of the three bounds. -/
theorem c1_counterexample :
    writeChunkMaxSize ⟨10, true, true, true⟩ ⟨"a", 0, true, 0, false, false⟩ 100 = 100 ∧
      (writeChunk ⟨10, true, true, true⟩ ⟨100, none, none, none, none⟩ ⟨204, []⟩
          ⟨"a", 0, true, 0, false, false⟩ 100 true).events =
        [.writeChunkCall 0 100, .finishAttempt] ∧
      ¬((100 : Int) ≤ 10 - 0) := by
  refine ⟨rfl, rfl, by decide⟩

/-- Claim C1 (amended): the write budget is `Size - Offset` for a known
size, else `MaxSize - Offset` when a positive global maximum is
configured, else `math.MaxInt64`; a positive request `Content-Length`
overrides the budget unconditionally.  The override is guaranteed to be
within the size bound only in the known-size case (thanks to the eager
`ErrSizeExceeded` check); for a deferred size it may exceed
`MaxSize - Offset`. -/
theorem c1_amended (cfg : Config) (info : FileInfo) (len : Int) :
    (len ≤ 0 → info.sizeIsDeferred = false →
        writeChunkMaxSize cfg info len = info.size - info.offset) ∧
    (len ≤ 0 → info.sizeIsDeferred = true → 0 < cfg.maxSize →
        writeChunkMaxSize cfg info len = cfg.maxSize - info.offset) ∧
    (len ≤ 0 → info.sizeIsDeferred = true → cfg.maxSize ≤ 0 →
        writeChunkMaxSize cfg info len = maxInt64) ∧
    (0 < len → writeChunkMaxSize cfg info len = len) ∧
    (0 < len → info.sizeIsDeferred = false → info.offset + len ≤ info.size →
        writeChunkMaxSize cfg info len ≤ info.size - info.offset) := by
  refine ⟨?_, ?_, ?_, ?_, ?_⟩
  · intro h1 h2
    simp only [writeChunkMaxSize, h2, if_neg (by omega : ¬ len > 0), Bool.false_eq_true,
      if_false]
  · intro h1 h2 h3
    simp only [writeChunkMaxSize, h2, if_true, if_pos h3, if_neg (by omega : ¬ len > 0)]
  · intro h1 h2 h3
    simp only [writeChunkMaxSize, h2, if_true, if_neg (by omega : ¬ cfg.maxSize > 0),
      if_neg (by omega : ¬ len > 0)]
  · intro h1
    simp only [writeChunkMaxSize, if_pos (by omega : len > 0)]
  · intro h1 h2 h3
    simp only [writeChunkMaxSize, h2, Bool.false_eq_true, if_false,
      if_pos (by omega : len > 0)]
    omega

/-- Witness for `c1_amended` at concrete values. -/
theorem c1_amended_witness :
    writeChunkMaxSize ⟨0, false, false, false⟩ ⟨"a", 10, false, 3, false, false⟩ 0 = 10 - 3 ∧
      writeChunkMaxSize ⟨0, false, false, false⟩ ⟨"a", 10, false, 3, false, false⟩ 5 = 5 := by
  constructor
  · exact (c1_amended ⟨0, false, false, false⟩ ⟨"a", 10, false, 3, false, false⟩ 0).1
      (by decide) rfl
  · exact (c1_amended ⟨0, false, false, false⟩ ⟨"a", 10, false, 3, false, false⟩ 5).2.2.2.1
      (by decide)

/-- Helper: `finishUploadIfComplete` always records its invocation. -/
theorem finishAttempt_mem_finishUploadIfComplete (sb : StoreBehavior) (resp : HTTPResponse)
    (info : FileInfo) :
    StoreEvent.finishAttempt ∈ (finishUploadIfComplete sb resp info).2 := by
  unfold finishUploadIfComplete
  split
  · rcases sb.finishErr with _ | e
    · rcases sb.preFinishHook with _ | r
      · simp
      · rcases r with e | r2 <;> simp
    · simp
  · simp

/-- Claim C4: for an upload with a known size, the engine never advances
the offset beyond the size.  A request whose `Offset + Content-Length`
overshoots is rejected with `ErrSizeExceeded` before any store call
(empty event trace, unchanged state); otherwise the body reader caps the
transfer at the budget, and any store write within the budget leaves the
post-write offset at most `Size`. -/
theorem c4_offset_never_exceeds_size (cfg : Config) (sb : StoreBehavior)
    (resp : HTTPResponse) (info : FileInfo) (len : Int) (hasBody : Bool)
    (hdef : info.sizeIsDeferred = false) :
    (info.offset + len > info.size →
        writeChunk cfg sb resp info len hasBody = ⟨resp, some ErrSizeExceeded, [], info⟩) ∧
    (info.offset ≤ info.size → 0 ≤ sb.bytesWritten →
        sb.bytesWritten ≤ writeChunkMaxSize cfg info len →
        info.offset + len ≤ info.size →
        (writeChunk cfg sb resp info len hasBody).info.offset ≤ info.size) := by
  constructor
  · intro h
    unfold writeChunk
    rw [if_pos ⟨hdef, h⟩]
  · intro h0 h1 h2 h3
    unfold writeChunk
    rw [if_neg (by intro hc; omega)]
    have hms : writeChunkMaxSize cfg info len ≤ info.size - info.offset := by
      unfold writeChunkMaxSize at h2 ⊢
      simp only [hdef, Bool.false_eq_true, if_false] at h2 ⊢
      split <;> omega
    rcases hasBody with _ | _ <;>
      rcases hsb : sb.transferErr with _ | e <;>
        simp [hsb] <;> omega

/-- Claim C7: after the eager size check, one invocation of the transfer
engine always attempts completion (`finishUploadIfComplete` is invoked —
the `finishAttempt` event is in the trace — for every store behaviour,
including every transfer error); and when the transfer errored, the
engine returns that error together with the response as it stood before
the completion attempt (the 204-response with the fresh `Upload-Offset`),
for every outcome of `FinishUpload` and of the pre-finish hook. -/
theorem c7_completion_attempted_transfer_error_wins (cfg : Config) (sb : StoreBehavior)
    (resp : HTTPResponse) (info : FileInfo) (len : Int)
    (hpass : ¬(info.sizeIsDeferred = false ∧ info.offset + len > info.size)) :
    StoreEvent.finishAttempt ∈ (writeChunk cfg sb resp info len true).events ∧
    (∀ e, sb.transferErr = some e →
      (writeChunk cfg sb resp info len true).err = some e ∧
      (writeChunk cfg sb resp info len true).resp =
        resp.setHeader "Upload-Offset" (formatInt (info.offset + sb.bytesWritten))) := by
  constructor
  · unfold writeChunk
    rw [if_neg hpass]
    rcases hsb : sb.transferErr with _ | e <;>
      simp [hsb, finishAttempt_mem_finishUploadIfComplete]
  · intro e he
    unfold writeChunk
    rw [if_neg hpass]
    simp [he]

/-- Witness for `c4_offset_never_exceeds_size` at a concrete request. -/
theorem c4_witness :
    writeChunk ⟨0, false, false, false⟩ ⟨99, none, none, none, none⟩ ⟨204, []⟩
        ⟨"a", 20, false, 7, false, false⟩ 50 true =
      ⟨⟨204, []⟩, some ErrSizeExceeded, [], ⟨"a", 20, false, 7, false, false⟩⟩ ∧
    (writeChunk ⟨0, false, false, false⟩ ⟨5, none, none, none, none⟩ ⟨204, []⟩
        ⟨"a", 20, false, 7, false, false⟩ 5 true).info.offset ≤ 20 := by
  constructor
  · exact (c4_offset_never_exceeds_size ⟨0, false, false, false⟩ ⟨99, none, none, none, none⟩
      ⟨204, []⟩ ⟨"a", 20, false, 7, false, false⟩ 50 true rfl).1 (by decide)
  · exact (c4_offset_never_exceeds_size ⟨0, false, false, false⟩ ⟨5, none, none, none, none⟩
      ⟨204, []⟩ ⟨"a", 20, false, 7, false, false⟩ 5 true rfl).2 (by decide) (by decide)
      (by decide) (by decide)

/-- Witness for `c7_completion_attempted_transfer_error_wins` at a
concrete transfer error. -/
theorem c7_witness :
    StoreEvent.finishAttempt ∈
      (writeChunk ⟨0, false, false, false⟩ ⟨3, some ErrNotFound, some ErrModifyFinal, none, none⟩
        ⟨204, []⟩ ⟨"a", 20, false, 7, false, false⟩ 3 true).events ∧
    (writeChunk ⟨0, false, false, false⟩ ⟨3, some ErrNotFound, some ErrModifyFinal, none, none⟩
        ⟨204, []⟩ ⟨"a", 20, false, 7, false, false⟩ 3 true).err = some ErrNotFound := by
  refine ⟨(c7_completion_attempted_transfer_error_wins ⟨0, false, false, false⟩
    ⟨3, some ErrNotFound, some ErrModifyFinal, none, none⟩ ⟨204, []⟩
    ⟨"a", 20, false, 7, false, false⟩ 3 (by decide)).1,
    ((c7_completion_attempted_transfer_error_wins ⟨0, false, false, false⟩
    ⟨3, some ErrNotFound, some ErrModifyFinal, none, none⟩ ⟨204, []⟩
    ⟨"a", 20, false, 7, false, false⟩ 3 (by decide)).2 ErrNotFound rfl).1⟩

/-- Helper: the transfer engine never changes the size or the deferral
flag of the upload, only the offset. -/
theorem writeChunk_preserves_size (cfg : Config) (sb : StoreBehavior) (resp : HTTPResponse)
    (info : FileInfo) (len : Int) (hasBody : Bool) :
    (writeChunk cfg sb resp info len hasBody).info.sizeIsDeferred = info.sizeIsDeferred ∧
      (writeChunk cfg sb resp info len hasBody).info.size = info.size := by
  unfold writeChunk
  split
  · exact ⟨rfl, rfl⟩
  · rcases hsb : (if hasBody then sb.transferErr else none) with _ | e <;> simp [hsb]

/-- Claim C5: a PATCH whose parsed `Upload-Offset` differs from the
stored offset is answered with `ErrMismatchOffset` (HTTP 409), with an
empty store trace (no chunk written, no declaration) and the upload state
unchanged.  Preconditions: the request passes the earlier checks of the
handler (content type for tus v1, a well-formed non-negative offset
header, not a final upload). -/
theorem c5_patch_mismatched_offset (cfg : Config) (sb : StoreBehavior) (req : PatchRequest)
    (info : FileInfo) (o : Int)
    (hct : req.isDraft = false → req.contentType = "application/offset+octet-stream")
    (hoff : parseInt64 req.uploadOffset = some o) (hnn : 0 ≤ o)
    (hfin : info.isFinal = false) (hne : o ≠ info.offset) :
    patchFile cfg sb req info = ⟨.error ErrMismatchOffset, [], info⟩ ∧
      ErrMismatchOffset.status = 409 := by
  refine ⟨?_, rfl⟩
  unfold patchFile
  rw [if_neg (by rintro ⟨h1, h2⟩; exact h2 (hct h1)), hoff]
  simp only [hfin, Bool.false_eq_true, if_false, if_neg (by omega : ¬ o < 0), if_pos hne]

/-- Claim C8: a PATCH on an already complete upload (known size, offset
equal to size) that passes the offset check is answered `204 No Content`
with `Upload-Offset` set to the current offset, with an empty store trace
(no body read, no `WriteChunk`) and the state unchanged. -/
theorem c8_patch_already_complete (cfg : Config) (sb : StoreBehavior) (req : PatchRequest)
    (info : FileInfo) (o : Int)
    (hct : req.isDraft = false → req.contentType = "application/offset+octet-stream")
    (hoff : parseInt64 req.uploadOffset = some o) (hnn : 0 ≤ o)
    (hfin : info.isFinal = false) (heq : o = info.offset)
    (hcomp : info.sizeIsDeferred = false ∧ info.offset = info.size) :
    patchFile cfg sb req info =
      ⟨.ok (HTTPResponse.setHeader ⟨204, []⟩ "Upload-Offset" (formatInt o)), [], info⟩ := by
  unfold patchFile
  rw [if_neg (by rintro ⟨h1, h2⟩; exact h2 (hct h1)), hoff]
  simp only [hfin, Bool.false_eq_true, if_false, if_neg (by omega : ¬ o < 0),
    if_neg (by omega : ¬ o ≠ info.offset), if_pos hcomp]

/-- Witness for `c5_patch_mismatched_offset` at a concrete request. -/
theorem c5_witness :
    patchFile ⟨0, true, true, true⟩ ⟨5, none, none, none, none⟩
        ⟨"application/offset+octet-stream", "3", "", "", 5, true, false⟩
        ⟨"a", 20, false, 5, false, false⟩ =
      ⟨.error ErrMismatchOffset, [], ⟨"a", 20, false, 5, false, false⟩⟩ :=
  (c5_patch_mismatched_offset ⟨0, true, true, true⟩ ⟨5, none, none, none, none⟩
    ⟨"application/offset+octet-stream", "3", "", "", 5, true, false⟩
    ⟨"a", 20, false, 5, false, false⟩ 3 (fun _ => rfl) rfl (by decide) rfl (by decide)).1

/-- Witness for `c8_patch_already_complete` at a concrete request. -/
theorem c8_witness :
    patchFile ⟨0, true, true, true⟩ ⟨5, none, none, none, none⟩
        ⟨"application/offset+octet-stream", "7", "", "", 0, false, false⟩
        ⟨"a", 7, false, 7, false, false⟩ =
      ⟨.ok (HTTPResponse.setHeader ⟨204, []⟩ "Upload-Offset" (formatInt 7)), [],
        ⟨"a", 7, false, 7, false, false⟩⟩ :=
  c8_patch_already_complete ⟨0, true, true, true⟩ ⟨5, none, none, none, none⟩
    ⟨"application/offset+octet-stream", "7", "", "", 0, false, false⟩
    ⟨"a", 7, false, 7, false, false⟩ 7 (fun _ => rfl) rfl (by decide) rfl rfl ⟨rfl, rfl⟩

/-- Claim C9: handling of `Upload-Length` on a PATCH that reaches the
declaration step (store supports deferral; request passed the earlier
checks and the upload is not already complete).  (1) If the size is not
deferred, the result is `ErrInvalidUploadLength` and nothing is written.
(2)/(3) If it is deferred but the declared value fails to parse, is
negative, is below the current offset, or exceeds a configured positive
`MaxSize`, the result is `ErrInvalidUploadLength` and nothing is written.
(4) A valid declaration is sent to the store (`declareLengthCall n` leads
the trace) and afterwards the upload's size is no longer deferred — so by
(1) a second declaration attempt can only fail: length is declared at
most once. -/
theorem c9_patch_declare_length (cfg : Config) (sb : StoreBehavior) (req : PatchRequest)
    (info : FileInfo) (o : Int)
    (hct : req.isDraft = false → req.contentType = "application/offset+octet-stream")
    (hoff : parseInt64 req.uploadOffset = some o) (hnn : 0 ≤ o)
    (hfin : info.isFinal = false) (heq : o = info.offset)
    (hncomp : ¬(info.sizeIsDeferred = false ∧ info.offset = info.size))
    (hhdr : req.uploadLength ≠ "") (hcap : cfg.usesLengthDeferrer = true) :
    (info.sizeIsDeferred = false →
      patchFile cfg sb req info = ⟨.error ErrInvalidUploadLength, [], info⟩) ∧
    (info.sizeIsDeferred = true → parseInt64 req.uploadLength = none →
      patchFile cfg sb req info = ⟨.error ErrInvalidUploadLength, [], info⟩) ∧
    (∀ n, info.sizeIsDeferred = true → parseInt64 req.uploadLength = some n →
      (n < 0 ∨ n < info.offset ∨ (0 < cfg.maxSize ∧ cfg.maxSize < n)) →
      patchFile cfg sb req info = ⟨.error ErrInvalidUploadLength, [], info⟩) ∧
    (∀ n, info.sizeIsDeferred = true → parseInt64 req.uploadLength = some n →
      0 ≤ n → info.offset ≤ n → (0 < cfg.maxSize → n ≤ cfg.maxSize) →
      sb.declareErr = none →
      (patchFile cfg sb req info).events.head? = some (.declareLengthCall n) ∧
      (patchFile cfg sb req info).info.sizeIsDeferred = false) := by
  refine ⟨?_, ?_, ?_, ?_⟩
  · intro hdef
    unfold patchFile
    rw [if_neg (by rintro ⟨hh1, hh2⟩; exact hh2 (hct hh1)), hoff]
    simp only [hfin, Bool.false_eq_true, if_false, if_neg (by omega : ¬ o < 0),
      if_neg (by omega : ¬ o ≠ info.offset)]
    rw [if_neg hncomp]
    simp [hhdr, hcap, hdef]
  · intro hdef hp
    unfold patchFile
    rw [if_neg (by rintro ⟨hh1, hh2⟩; exact hh2 (hct hh1)), hoff]
    simp only [hfin, Bool.false_eq_true, if_false, if_neg (by omega : ¬ o < 0),
      if_neg (by omega : ¬ o ≠ info.offset)]
    rw [if_neg hncomp]
    simp [hhdr, hcap, hdef, hp]
  · intro n hdef hp hbad
    unfold patchFile
    rw [if_neg (by rintro ⟨hh1, hh2⟩; exact hh2 (hct hh1)), hoff]
    simp only [hfin, Bool.false_eq_true, if_false, if_neg (by omega : ¬ o < 0),
      if_neg (by omega : ¬ o ≠ info.offset)]
    rw [if_neg hncomp]
    simp only [if_pos hhdr, hcap, Bool.true_eq_false, if_false, hdef, hp]
    rw [if_pos (by omega)]
  · intro n hdef hp h0 h1 h2 hdecl
    unfold patchFile
    rw [if_neg (by rintro ⟨hh1, hh2⟩; exact hh2 (hct hh1)), hoff]
    simp only [hfin, Bool.false_eq_true, if_false, if_neg (by omega : ¬ o < 0),
      if_neg (by omega : ¬ o ≠ info.offset)]
    rw [if_neg hncomp]
    simp only [if_pos hhdr, hcap, Bool.true_eq_false, if_false, hdef, hp, hdecl]
    rw [if_neg (by omega)]
    have hw := writeChunk_preserves_size cfg sb ⟨204, []⟩
      ⟨info.id, n, false, info.offset, info.isPartialUpload, false⟩ req.contentLength req.hasBody
    rcases hwe : (writeChunk cfg sb ⟨204, []⟩
        ⟨info.id, n, false, info.offset, info.isPartialUpload, false⟩
        req.contentLength req.hasBody).err with _ | e
    · simp [hwe, hw.1]
    · simp [hwe, hw.1]

/-- Witness for `c9_patch_declare_length`: a valid declaration is sent to
the store, and a declaration on a non-deferred (not yet complete) upload
fails with `ErrInvalidUploadLength`. -/
theorem c9_witness :
    (patchFile ⟨100, true, true, true⟩ ⟨5, none, none, none, none⟩
        ⟨"application/offset+octet-stream", "5", "42", "", 5, true, false⟩
        ⟨"a", 0, true, 5, false, false⟩).events.head? =
      some (.declareLengthCall 42) ∧
    patchFile ⟨100, true, true, true⟩ ⟨5, none, none, none, none⟩
        ⟨"application/offset+octet-stream", "7", "42", "", 5, true, false⟩
        ⟨"a", 20, false, 7, false, false⟩ =
      ⟨.error ErrInvalidUploadLength, [], ⟨"a", 20, false, 7, false, false⟩⟩ := by
  constructor
  · exact ((c9_patch_declare_length ⟨100, true, true, true⟩ ⟨5, none, none, none, none⟩
      ⟨"application/offset+octet-stream", "5", "42", "", 5, true, false⟩
      ⟨"a", 0, true, 5, false, false⟩ 5 (fun _ => rfl) (by decide) (by decide) rfl rfl
      (by decide) (by decide) rfl).2.2.2 42 rfl (by decide) (by decide) (by decide)
      (fun _ => by decide) rfl).1
  · exact (c9_patch_declare_length ⟨100, true, true, true⟩ ⟨5, none, none, none, none⟩
      ⟨"application/offset+octet-stream", "7", "42", "", 5, true, false⟩
      ⟨"a", 20, false, 7, false, false⟩ 7 (fun _ => rfl) (by decide) (by decide) rfl rfl
      (by decide) (by decide) rfl).1 rfl

/-- Claim C6: an `Upload-Concat` header that starts with `final;` and
whose component scan completes with zero extracted ids yields
`ErrInvalidConcat` with `isFinal` reported as `false` (the Go tail step
forces the flag back). -/
theorem c6_parseConcat_final_no_ids (header : List Char)
    (hpre : "final;".data.isPrefixOf header = true)
    (hloop : concatExtractLoop (List.splitOn ' ' (header.drop 6)) = ([], none)) :
    parseConcat header = (false, false, [], some ErrInvalidConcat) := by
  have h0 : ¬ header.length = 0 := by
    intro h
    rw [List.length_eq_zero] at h
    rw [h] at hpre
    exact absurd hpre (by decide)
  have hp : ¬ header = "partial".data := by
    intro h
    rw [h] at hpre
    exact absurd hpre (by decide)
  unfold parseConcat
  rw [if_neg h0, if_neg hp]
  by_cases hlen : 6 < header.length
  · rw [if_pos ⟨hpre, hlen⟩]
    simp [hloop]
  · rw [if_neg (fun hc => hlen hc.2)]

/-- Witness for `c6_parseConcat_final_no_ids` on the header `final; `. -/
theorem c6_witness :
    parseConcat "final; ".data = (false, false, [], some ErrInvalidConcat) :=
  c6_parseConcat_final_no_ids "final; ".data (by decide) (by decide)

/-- Claim C10: a tus-v1 creation request that is not a final
concatenation and carries neither `Upload-Length` nor
`Upload-Defer-Length` fails validation with `ErrInvalidUploadLength`
(the empty `Upload-Length` string does not parse), so `NewUpload` is
never reached and no upload is created. -/
theorem c10_post_without_length_headers (cfg : Config) (req : PostRequest)
    (so : Except GoError Int)
    (hpc : (parseConcat (if cfg.usesConcater then req.uploadConcat else "").data).2.1 = false)
    (hpcerr :
      (parseConcat (if cfg.usesConcater then req.uploadConcat else "").data).2.2.2 = none)
    (hl : req.uploadLength = "") (hd : req.uploadDeferLength = "") :
    postFileValidate cfg req so = .error ErrInvalidUploadLength := by
  have hv : validateNewUploadLengthHeaders cfg.usesLengthDeferrer "" "" =
      (0, false, some ErrInvalidUploadLength) := rfl
  unfold postFileValidate
  rcases hres : parseConcat (if cfg.usesConcater then req.uploadConcat else "").data with
    ⟨p, f, ids, e⟩
  rw [hres] at hpc hpcerr
  simp only at hpc hpcerr
  subst hpc
  subst hpcerr
  simp [hres, hl, hd, hv]

/-- Witness for `c10_post_without_length_headers` at a concrete request. -/
theorem c10_witness :
    postFileValidate ⟨0, true, true, true⟩ ⟨"", "", "", ""⟩ (.ok 0) =
      .error ErrInvalidUploadLength :=
  c10_post_without_length_headers ⟨0, true, true, true⟩ ⟨"", "", "", ""⟩ (.ok 0)
    (by decide) (by decide) rfl rfl

/-- The alphabet table and its inverse agree on all 64 sextets. -/
theorem b64Index_b64Char_fin : ∀ n : Fin 64, b64Index (b64Char n.val) = some n.val := by
  decide

/-- Version of `b64Index_b64Char_fin` with a bound hypothesis. -/
theorem b64Index_b64Char {n : Nat} (h : n < 64) : b64Index (b64Char n) = some n :=
  b64Index_b64Char_fin ⟨n, h⟩

/-- Alphabet bytes lie in `[43, 122]` and are neither `,` (44) nor the
padding byte `=` (61). -/
theorem b64Char_bounds_fin :
    ∀ n : Fin 64, 43 ≤ b64Char n.val ∧ b64Char n.val ≠ 44 ∧ b64Char n.val ≠ 61 := by
  decide

/-- Alphabet bytes are never the padding byte. -/
theorem b64Char_ne_61 {n : Nat} (h : n < 64) : b64Char n ≠ 61 :=
  (b64Char_bounds_fin ⟨n, h⟩).2.2

/-- Decoding inverts encoding on byte strings. -/
theorem base64Decode_encode : ∀ l : Bytes, (∀ b ∈ l, b < 256) →
    base64Decode (base64Encode l) = some l
  | [], _ => rfl
  | [b1], h => by
    have hb1 : b1 < 256 := h b1 (by simp)
    have h1 : b1 / 4 < 64 := by omega
    have h2 : b1 % 4 * 16 < 64 := by omega
    show base64Decode [b64Char (b1 / 4), b64Char (b1 % 4 * 16), 61, 61] = some [b1]
    simp [base64Decode, b64Index_b64Char h1, b64Index_b64Char h2]
    omega
  | [b1, b2], h => by
    have hb1 : b1 < 256 := h b1 (by simp)
    have hb2 : b2 < 256 := h b2 (by simp)
    have h1 : b1 / 4 < 64 := by omega
    have h2 : b1 % 4 * 16 + b2 / 16 < 64 := by omega
    have h3 : b2 % 16 * 4 < 64 := by omega
    show base64Decode
        [b64Char (b1 / 4), b64Char (b1 % 4 * 16 + b2 / 16), b64Char (b2 % 16 * 4), 61] =
      some [b1, b2]
    simp [base64Decode, b64Index_b64Char h1, b64Index_b64Char h2, b64Index_b64Char h3,
      b64Char_ne_61 h3]
    omega
  | b1 :: b2 :: b3 :: rest, h => by
    have hb1 : b1 < 256 := h b1 (by simp)
    have hb2 : b2 < 256 := h b2 (by simp)
    have hb3 : b3 < 256 := h b3 (by simp)
    have ih := base64Decode_encode rest (fun b hb => h b (by simp [hb]))
    have h1 : b1 / 4 < 64 := by omega
    have h2 : b1 % 4 * 16 + b2 / 16 < 64 := by omega
    have h3 : b2 % 16 * 4 + b3 / 64 < 64 := by omega
    have h4 : b3 % 64 < 64 := by omega
    show base64Decode
        (b64Char (b1 / 4) :: b64Char (b1 % 4 * 16 + b2 / 16) ::
          b64Char (b2 % 16 * 4 + b3 / 64) :: b64Char (b3 % 64) :: base64Encode rest) =
      some (b1 :: b2 :: b3 :: rest)
    simp [base64Decode, b64Index_b64Char h1, b64Index_b64Char h2, b64Index_b64Char h3,
      b64Index_b64Char h4, b64Char_ne_61 h3, b64Char_ne_61 h4, ih]
    omega

/-- Every byte of an encoding is at least 43 and is not a comma. -/
theorem base64Encode_mem_bounds : ∀ l : Bytes, (∀ b ∈ l, b < 256) →
    ∀ c ∈ base64Encode l, 43 ≤ c ∧ c ≠ 44
  | [], _ => by simp [base64Encode]
  | [b1], h => by
    have hb1 : b1 < 256 := h b1 (by simp)
    have h1 : b1 / 4 < 64 := by omega
    have h2 : b1 % 4 * 16 < 64 := by omega
    intro c hc
    simp [base64Encode] at hc
    rcases hc with hc | hc | hc
    · exact hc ▸ ⟨(b64Char_bounds_fin ⟨_, h1⟩).1, (b64Char_bounds_fin ⟨_, h1⟩).2.1⟩
    · exact hc ▸ ⟨(b64Char_bounds_fin ⟨_, h2⟩).1, (b64Char_bounds_fin ⟨_, h2⟩).2.1⟩
    · exact hc ▸ (by decide)
  | [b1, b2], h => by
    have hb1 : b1 < 256 := h b1 (by simp)
    have hb2 : b2 < 256 := h b2 (by simp)
    have h1 : b1 / 4 < 64 := by omega
    have h2 : b1 % 4 * 16 + b2 / 16 < 64 := by omega
    have h3 : b2 % 16 * 4 < 64 := by omega
    intro c hc
    simp [base64Encode] at hc
    rcases hc with hc | hc | hc | hc
    · exact hc ▸ ⟨(b64Char_bounds_fin ⟨_, h1⟩).1, (b64Char_bounds_fin ⟨_, h1⟩).2.1⟩
    · exact hc ▸ ⟨(b64Char_bounds_fin ⟨_, h2⟩).1, (b64Char_bounds_fin ⟨_, h2⟩).2.1⟩
    · exact hc ▸ ⟨(b64Char_bounds_fin ⟨_, h3⟩).1, (b64Char_bounds_fin ⟨_, h3⟩).2.1⟩
    · exact hc ▸ (by decide)
  | b1 :: b2 :: b3 :: rest, h => by
    have hb1 : b1 < 256 := h b1 (by simp)
    have hb2 : b2 < 256 := h b2 (by simp)
    have hb3 : b3 < 256 := h b3 (by simp)
    have ih := base64Encode_mem_bounds rest (fun b hb => h b (by simp [hb]))
    have h1 : b1 / 4 < 64 := by omega
    have h2 : b1 % 4 * 16 + b2 / 16 < 64 := by omega
    have h3 : b2 % 16 * 4 + b3 / 64 < 64 := by omega
    have h4 : b3 % 64 < 64 := by omega
    intro c hc
    simp only [base64Encode, List.mem_cons] at hc
    rcases hc with hc | hc | hc | hc | hc
    · exact hc ▸ ⟨(b64Char_bounds_fin ⟨_, h1⟩).1, (b64Char_bounds_fin ⟨_, h1⟩).2.1⟩
    · exact hc ▸ ⟨(b64Char_bounds_fin ⟨_, h2⟩).1, (b64Char_bounds_fin ⟨_, h2⟩).2.1⟩
    · exact hc ▸ ⟨(b64Char_bounds_fin ⟨_, h3⟩).1, (b64Char_bounds_fin ⟨_, h3⟩).2.1⟩
    · exact hc ▸ ⟨(b64Char_bounds_fin ⟨_, h4⟩).1, (b64Char_bounds_fin ⟨_, h4⟩).2.1⟩
    · exact ih c hc

/-- An encoding is empty exactly when the input is empty. -/
theorem base64Encode_ne_nil : ∀ l : Bytes, l ≠ [] → base64Encode l ≠ []
  | [], h => absurd rfl h
  | [_], _ => by simp [base64Encode]
  | [_, _], _ => by simp [base64Encode]
  | _ :: _ :: _ :: _, _ => by simp [base64Encode]

/-- `dropWhile` is the identity when the first element (if any) fails the
predicate. -/
theorem dropWhile_eq_self_of_head {α : Type} (p : α → Bool) (l : List α)
    (h : ∀ a, l.head? = some a → p a = false) : l.dropWhile p = l := by
  cases l with
  | nil => rfl
  | cons a t =>
    rw [List.dropWhile_cons, if_neg]
    simp [h a rfl]

/-- `trimSpace` is the identity when neither end of the list is white
space. -/
theorem trimSpace_eq_self (l : Bytes)
    (h1 : ∀ a, l.head? = some a → isSpaceByte a = false)
    (h2 : ∀ a, l.getLast? = some a → isSpaceByte a = false) : trimSpace l = l := by
  unfold trimSpace
  rw [dropWhile_eq_self_of_head _ _ h1,
    dropWhile_eq_self_of_head _ _ (fun a ha => h2 a (by rwa [List.head?_reverse] at ha)),
    List.reverse_reverse]

/-- An element reported by `getLast?` is a member of the list. -/
theorem mem_of_getLast?_eq {l : Bytes} {a : Nat} (h : l.getLast? = some a) : a ∈ l := by
  obtain ⟨hne, rfl⟩ := List.mem_getLast?_eq_getLast (show a ∈ l.getLast? from h)
  exact List.getLast_mem hne

/-- `trimSpace` strips exactly the trailing space of `k ++ [32]` when `k`
is free of white space. -/
theorem trimSpace_append_space (k : Bytes) (hk : k ≠ [])
    (h : ∀ c ∈ k, isSpaceByte c = false) : trimSpace (k ++ [32]) = k := by
  obtain ⟨a, t, rfl⟩ := List.exists_cons_of_ne_nil hk
  unfold trimSpace
  rw [List.cons_append, List.dropWhile_cons, if_neg (by simp [h a (by simp)])]
  rw [show ((a :: (t ++ [32]) : Bytes)).reverse = 32 :: ((a :: t).reverse) by simp]
  rw [List.dropWhile_cons, if_pos (by decide)]
  rw [dropWhile_eq_self_of_head _ _ (fun c hc => by
      rw [List.head?_reverse] at hc
      exact h c (mem_of_getLast?_eq hc)),
    List.reverse_reverse]

/-- The last element of `l ++ x :: e` is the last element of `x :: e`. -/
theorem getLast?_append_cons (k : Bytes) (x : Nat) (e : Bytes) :
    (k ++ x :: e).getLast? = (x :: e).getLast? := by
  cases hgl : (x :: e).getLast? with
  | none => exact absurd (List.getLast?_eq_none_iff.mp hgl) (by simp)
  | some b => rw [List.getLast?_append, hgl]; rfl

/-- Parsing one serialized metadata element recovers the pair. -/
theorem parseMetadataElement_serialized (k v : Bytes) (hk : k ≠ [])
    (hkc : ∀ c ∈ k, isSpaceByte c = false ∧ c ≠ 44) (hv : ∀ b ∈ v, b < 256) :
    parseMetadataElement (k ++ 32 :: base64Encode v) = some (k, v) := by
  have hk32 : (32 : Nat) ∉ k := fun hm => by
    have := (hkc 32 hm).1
    simp [isSpaceByte] at this
  rcases hveq : base64Encode v with _ | ⟨c0, e'⟩
  · have hvnil : v = [] := by
      by_contra hne
      exact base64Encode_ne_nil v hne hveq
    subst hvnil
    unfold parseMetadataElement
    rw [trimSpace_append_space k hk (fun c hc => (hkc c hc).1)]
    rw [show List.splitOn 32 k = k.splitOnP (· == 32) from rfl]
    rw [List.splitOnP_eq_single _ _ (fun x hx => by simp; exact fun he => hk32 (he ▸ hx))]
    simp [hk]
  · have henil : base64Encode v ≠ [] := by rw [hveq]; simp
    have hbounds := base64Encode_mem_bounds v hv
    have hens : ∀ c ∈ base64Encode v, isSpaceByte c = false := fun c hc => by
      have := (hbounds c hc).1
      simp only [isSpaceByte, Bool.or_eq_false_iff, decide_eq_false_iff_not]
      omega
    have he32 : (32 : Nat) ∉ base64Encode v := fun hm => by
      have := (hbounds 32 hm).1
      omega
    rw [← hveq]
    obtain ⟨a0, t0, rfl⟩ := List.exists_cons_of_ne_nil hk
    unfold parseMetadataElement
    rw [trimSpace_eq_self _
      (fun a ha => by
        rw [List.cons_append, List.head?_cons] at ha
        exact (Option.some.inj ha) ▸ (hkc a0 (by simp)).1)
      (fun a ha => by
        rw [getLast?_append_cons] at ha
        rw [show ((32 : Nat) :: base64Encode v).getLast? = (base64Encode v).getLast? by
          rw [hveq, List.getLast?_cons_cons]] at ha
        exact hens a (mem_of_getLast?_eq ha))]
    rw [show ((a0 :: t0) ++ 32 :: base64Encode v : Bytes) =
        [32].intercalate [a0 :: t0, base64Encode v] by simp [List.intercalate]]
    rw [List.splitOn_intercalate _ 32 (by
        intro l hl
        simp only [List.mem_cons, List.not_mem_nil, or_false] at hl
        rcases hl with rfl | rfl
        · exact hk32
        · exact he32) (by simp)]
    simp [base64Decode_encode v hv]

/-- Go map assignment appends when the key is fresh. -/
theorem assocInsert_fresh (m : List (Bytes × Bytes)) (k v : Bytes)
    (h : ∀ q ∈ m, q.1 ≠ k) : assocInsert m k v = m ++ [(k, v)] := by
  unfold assocInsert
  rw [if_neg]
  simp only [List.any_eq_true, decide_eq_true_eq, not_exists]
  intro q hq
  exact h q hq.1 hq.2

/-- Folding the metadata parser over the serialized elements of a
well-formed map, starting from any accumulator with disjoint keys,
appends the map. -/
theorem metaStep_foldl_serialized : ∀ meta acc : List (Bytes × Bytes),
    (∀ p ∈ meta, p.1 ≠ [] ∧ (∀ c ∈ p.1, isSpaceByte c = false ∧ c ≠ 44) ∧
      ∀ b ∈ p.2, b < 256) →
    (meta.map (fun p => p.1)).Nodup →
    (∀ p ∈ meta, ∀ q ∈ acc, q.1 ≠ p.1) →
    (meta.map (fun p => p.1 ++ 32 :: base64Encode p.2)).foldl metaStep acc = acc ++ meta
  | [], acc, _, _, _ => by simp
  | p :: rest, acc, h, hnodup, hdisj => by
    have hp := h p (by simp)
    have hstep : metaStep acc (p.1 ++ 32 :: base64Encode p.2) = acc ++ [p] := by
      unfold metaStep
      rw [parseMetadataElement_serialized p.1 p.2 hp.1 hp.2.1 hp.2.2]
      exact assocInsert_fresh acc p.1 p.2 (fun q hq => hdisj p (by simp) q hq)
    rw [List.map_cons, List.foldl_cons, hstep]
    rw [metaStep_foldl_serialized rest (acc ++ [p])
      (fun q hq => h q (by simp [hq]))
      (by simpa using hnodup.of_cons)
      (fun q hq r hr => by
        rcases List.mem_append.mp hr with hr | hr
        · exact hdisj q (by simp [hq]) r hr
        · have : r = p := by simpa using hr
          subst this
          intro he
          have hmem : q.1 ∈ rest.map (fun p => p.1) := List.mem_map_of_mem _ hq
          rw [← he] at hmem
          exact (List.nodup_cons.mp hnodup).1 hmem)]
    simp

/-- Claim C3: (round trip) for every well-formed metadata map — non-empty
keys free of white space and commas, arbitrary byte-string values,
pairwise-distinct keys — parsing the serialization returns exactly the
map, so in particular the two agree as maps; (drop invalid) an element
that fails to parse (for example because its value is not valid base64)
is silently dropped: the parse of the whole header equals the parse of
the header with that element removed, and parsing is total by
construction, so the whole header never fails. -/
theorem c3_metadata_roundtrip_and_drop :
    (∀ meta : List (Bytes × Bytes), WellFormedMeta meta →
      ParseMetadataHeader (SerializeMetadataHeader meta) = meta) ∧
    (∀ es1 es2 : List Bytes, ∀ e : Bytes,
      (∀ x ∈ es1 ++ e :: es2, (44 : Nat) ∉ x) →
      parseMetadataElement e = none →
      ParseMetadataHeader (List.intercalate [44] (es1 ++ e :: es2)) =
        ParseMetadataHeader (List.intercalate [44] (es1 ++ es2))) := by
  constructor
  · intro meta hwf
    rcases hmeta : meta with _ | ⟨p, rest⟩
    · rfl
    · rw [← hmeta]
      have hne : meta ≠ [] := by rw [hmeta]; simp
      unfold ParseMetadataHeader SerializeMetadataHeader
      rw [List.splitOn_intercalate _ 44 (by
          intro l hl
          obtain ⟨q, hq, rfl⟩ := List.mem_map.mp hl
          intro hmem
          rcases List.mem_append.mp hmem with hmem | hmem
          · exact ((hwf.2 q hq).2.1 44 hmem).2 rfl
          · rcases List.mem_cons.mp hmem with hmem | hmem
            · omega
            · exact (base64Encode_mem_bounds q.2 (hwf.2 q hq).2.2 44 hmem).2 rfl)
        (by simpa using hne)]
      simpa using metaStep_foldl_serialized meta [] (fun q hq => (hwf.2 q hq)) hwf.1
        (by simp)
  · intro es1 es2 e hnc hbad
    have hstep : ∀ m, metaStep m e = m := fun m => by unfold metaStep; rw [hbad]
    unfold ParseMetadataHeader
    rw [List.splitOn_intercalate _ 44 hnc (by simp)]
    rcases he12 : es1 ++ es2 with _ | ⟨x, xs⟩
    · obtain ⟨h1, h2⟩ := List.append_eq_nil.mp he12
      subst h1
      subst h2
      simp [hstep]
      decide
    · rw [← he12]
      rw [List.splitOn_intercalate _ 44
        (fun l hl => hnc l (by
          rcases List.mem_append.mp hl with hl | hl
          · exact List.mem_append.mpr (Or.inl hl)
          · exact List.mem_append.mpr (Or.inr (List.mem_cons.mpr (Or.inr hl)))))
        (by rw [he12]; simp)]
      rw [List.foldl_append, List.foldl_append, List.foldl_cons, hstep]

/-- Witness for `c3_metadata_roundtrip_and_drop`: the map
`name ↦ "hi"` round-trips, and the element `k2 !` (invalid base64 value)
is dropped from `key,k2 !,k3` without affecting the other entries. -/
theorem c3_witness :
    ParseMetadataHeader (SerializeMetadataHeader [([110, 97, 109, 101], [104, 105])]) =
      [([110, 97, 109, 101], [104, 105])] ∧
    ParseMetadataHeader (List.intercalate [44] [[107, 101, 121], [107, 50, 32, 33], [107, 51]]) =
      ParseMetadataHeader (List.intercalate [44] [[107, 101, 121], [107, 51]]) := by
  constructor
  · exact c3_metadata_roundtrip_and_drop.1 [([110, 97, 109, 101], [104, 105])]
      ⟨by decide, by decide⟩
  · exact c3_metadata_roundtrip_and_drop.2 [[107, 101, 121]] [[107, 51]] [107, 50, 32, 33]
      (by decide) (by decide)

end DBTusd
